import Mathlib

/-!
Shallow embedding of the `refacto` repository (a legacy-JS → TS refactoring
batch tool) and verification of its specification claims.

Embedded source files:
* `src/openaiService.ts` (completion client): `callOpenAIWithRetries`,
  `refactorCode`;
* `src/fileProcessor.ts`: `Summary`, `processFile`, `processDirectory`;
* `src/config.ts` (variant code): `attemptRefactorWithModel`;
* `src/refactorFunctions.ts` (variant code): `refactorReact`,
  `refactorJavascript`;
* `src/refactorFiles.ts` (variant pipeline): `processFiles`.

Remote completion calls, the random jitter, and file-system operations are
effects; they are embedded by passing their outcomes in explicitly
(an oracle `Nat → ApiOutcome` for the per-attempt API responses, a
`Nat → Nat` jitter function, and per-file booleans for read/write/unlink
success) and by recording the performed file-system operations in an
explicit trace.
-/

namespace Refacto

/-! ### String and path helpers

JS `String.prototype.endsWith` is a suffix test; Node `path.parse` splits a
path at the last `/` into `dir` and `base`, and `base` at its last `.`
(not counting a leading dot) into `name` and `ext`; `path.join(d, f)`
concatenates with a `/` separator. Only the behavior used by the sources is
embedded.
-/

/-- JS `s.endsWith(t)`: `t` is a suffix of `s`. -/
def strEndsWith (s t : String) : Bool :=
  t.toList.isSuffixOf s.toList

/-- Splits a list at the LAST occurrence of `c`: returns the parts strictly
before and strictly after that occurrence, or `none` if `c` does not occur. -/
def splitAtLast (c : Char) : List Char → Option (List Char × List Char)
  | [] => none
  | x :: xs =>
    match splitAtLast c xs with
    | some (a, b) => some (x :: a, b)
    | none => if x = c then some ([], xs) else none

/-- Node `path.parse(p).dir`: everything before the last `/` (empty if none). -/
def dirOf (p : String) : String :=
  match splitAtLast '/' p.toList with
  | some (d, _) => String.mk d
  | none => ""

/-- The last path component of `p` (after the last `/`, or all of `p`). -/
def fileNameOf (p : String) : String :=
  match splitAtLast '/' p.toList with
  | some (_, b) => String.mk b
  | none => p

/-- Node `path.parse(p).name`: the last component without its extension.
A dot at position 0 of the component does not start an extension. -/
def baseNameOf (p : String) : String :=
  match splitAtLast '.' (fileNameOf p).toList with
  | some (a, _) => if a = [] then fileNameOf p else String.mk a
  | none => fileNameOf p

/-- Node `path.extname(name)` on a single path component. -/
def extnameOf (name : String) : String :=
  match splitAtLast '.' name.toList with
  | some (a, b) => if a = [] then "" else String.mk ('.' :: b)
  | none => ""

/-- Node `path.join(d, f)` for the shapes used here. -/
def pathJoin (d f : String) : String :=
  if d = "" then f else d ++ "/" ++ f

/-! ### Completion client — `src/openaiService.ts`

`callOpenAIWithRetries(options)` issues requests to the OpenAI chat API.
The environment is an oracle `outcome : Nat → ApiOutcome` giving, for each
0-indexed attempt, either the HTTP response or the thrown error's resolved
status (`err.status || err.response?.status`), together with
`jitter : Nat → Nat`, the per-attempt value of `Math.floor(Math.random() * 1000)`
(always `< 1000`). The trace records the result, the number of requests
issued, and the list of backoff sleeps in order.
-/

/-- A chat completion response: each choice's optional message content
(`choices[i].message?.content`). -/
structure ChatCompletionResponse where
  choices : List (Option String)
deriving DecidableEq, Repr

/-- Outcome of one `openai.chat.completions.create` call: a response, or a
thrown error carrying the resolved HTTP status (if any). -/
inductive ApiOutcome where
  | ok (resp : ChatCompletionResponse)
  | err (status : Option Nat)
deriving DecidableEq, Repr

/-- Result of `callOpenAIWithRetries`: a response, a propagated non-429
error, or the retries-exhausted error thrown after the loop. -/
inductive CallResult where
  | success (resp : ChatCompletionResponse)
  | apiError (status : Option Nat)
  | retriesExhausted
deriving DecidableEq, Repr

/-- Trace of one `callOpenAIWithRetries` run. -/
structure CallTrace where
  result : CallResult
  requests : Nat
  sleeps : List Nat
deriving DecidableEq, Repr

/-- The retry loop of `callOpenAIWithRetries`, at current attempt index
`attempt` with `remaining` loop iterations left (`maxRetries - attempt`).
On a 429 it sleeps `baseDelay * 2 ^ attempt + jitter attempt` and retries;
any other error is rethrown at once; falling off the loop throws the
retries-exhausted error. -/
def callLoop (outcome : Nat → ApiOutcome) (jitter : Nat → Nat) (baseDelay : Nat) :
    Nat → Nat → CallTrace
  | _, 0 => ⟨CallResult.retriesExhausted, 0, []⟩
  | attempt, remaining + 1 =>
    match outcome attempt with
    | ApiOutcome.ok resp => ⟨CallResult.success resp, 1, []⟩
    | ApiOutcome.err status =>
      if status = some 429 then
        let delayTime := baseDelay * 2 ^ attempt + jitter attempt
        let t := callLoop outcome jitter baseDelay (attempt + 1) remaining
        ⟨t.result, t.requests + 1, delayTime :: t.sleeps⟩
      else
        ⟨CallResult.apiError status, 1, []⟩

/-- `callOpenAIWithRetries`: `maxRetries = 5`, `baseDelay = 2000`. -/
def callOpenAIWithRetries (outcome : Nat → ApiOutcome) (jitter : Nat → Nat) : CallTrace :=
  callLoop outcome jitter 2000 0 5

/-- Failure modes of `refactorCode`. -/
inductive RefactorError where
  | emptyCompletion
  | apiError (status : Option Nat)
  | retriesExhausted
deriving DecidableEq, Repr

/-- `refactorCode`: sends the prompt through `callOpenAIWithRetries` and
extracts `response.choices[0]?.message`; if the message is absent or its
content empty, throws `No content received from OpenAI response.`
(The prompt text and model name do not affect this control flow; they are
absorbed into the outcome oracle.) -/
def refactorCode (outcome : Nat → ApiOutcome) (jitter : Nat → Nat) :
    Except RefactorError String :=
  match (callOpenAIWithRetries outcome jitter).result with
  | CallResult.success resp =>
    match resp.choices.head? with
    | some (some s) =>
      if s = "" then Except.error RefactorError.emptyCompletion else Except.ok s
    | some none => Except.error RefactorError.emptyCompletion
    | none => Except.error RefactorError.emptyCompletion
  | CallResult.apiError status => Except.error (RefactorError.apiError status)
  | CallResult.retriesExhausted => Except.error RefactorError.retriesExhausted

/-! ### Variant retry logic — `src/config.ts` `attemptRefactorWithModel`

This variant loops `attempt = 1 .. maxRetries`; the whole request body,
including the `choices[0].message?.content` extraction and the
`No output from model` throw on empty content, sits inside one `try`, so
EVERY failure (any error status, 429 or not, and empty content alike) is
caught, waits a fixed `delayTimeMs` (when `attempt < maxRetries`), and is
retried. -/

/-- The value of `completion.choices[0].message?.content` if the attempt
succeeds with non-empty content, `none` on any caught failure (thrown
error, missing choice, missing message, or empty content). -/
def extractNonempty : ApiOutcome → Option String
  | ApiOutcome.ok resp =>
    match resp.choices.head? with
    | some (some s) => if s = "" then none else some s
    | some none => none
    | none => none
  | ApiOutcome.err _ => none

/-- Trace of one `attemptRefactorWithModel` run: the returned code (or
`none` when all attempts failed and the final error is thrown), the number
of requests issued, and the list of fixed delays waited. -/
structure AttemptTrace where
  result : Option String
  requests : Nat
  delays : List Nat
deriving DecidableEq, Repr

/-- The `for (let attempt = 1; attempt <= maxRetries; attempt++)` loop of
`attemptRefactorWithModel`, with `remaining` iterations left
(`maxRetries - attempt + 1`). -/
def attemptLoop (outcome : Nat → ApiOutcome) (maxRetries delayTimeMs : Nat) :
    Nat → Nat → AttemptTrace
  | _, 0 => ⟨none, 0, []⟩
  | attempt, remaining + 1 =>
    match extractNonempty (outcome attempt) with
    | some code => ⟨some code, 1, []⟩
    | none =>
      let waits := if attempt < maxRetries then [delayTimeMs] else []
      let t := attemptLoop outcome maxRetries delayTimeMs (attempt + 1) remaining
      ⟨t.result, t.requests + 1, waits ++ t.delays⟩

/-- `attemptRefactorWithModel(filePath, messages, model, maxRetries, delayTimeMs)`,
attempts numbered from 1 as in the source. -/
def attemptRefactorWithModel (outcome : Nat → ApiOutcome)
    (maxRetries delayTimeMs : Nat) : AttemptTrace :=
  attemptLoop outcome maxRetries delayTimeMs 1 maxRetries

/-! ### Main pipeline — `src/fileProcessor.ts`

`processFile` reads a file, classifies it with the regex
`/class\s+\w+\s+extends\s+(React\.Component|Component)/`, refactors it
via `refactorCode` (primary model `gpt-3.5-turbo`, then once more with
`"gpt-4o"` on any failure), writes the result to the same directory and
base name with extension `.tsx`/`.ts`, deletes the original, and updates
the module-level `summary`.

Per-file effects are embedded in `FileEnv`: `readOk` is whether
`fs.readFileSync` succeeds, `isReact` is the (boolean) value of the
classification regex test on the content, `primary`/`fallback` hold
`some code` exactly when the corresponding `refactorCode` call returns
(for any failure — propagated status error, exhausted retries, or empty
completion — they are `none`), and `writeOk`/`unlinkOk` are whether
`fs.writeFileSync`/`fs.unlinkSync` succeed. The trace records the summary,
the file-system operations performed, and the completion calls issued as
`(filePath, model)` pairs. The boolean paired with the resulting state is
`true` when an uncaught exception propagates out of the function. -/

/-- The `Summary` interface of `fileProcessor.ts`. -/
structure Summary where
  attempted : Nat
  succeeded : Nat
  failedInitiallyButSucceeded : Nat
  failed : Nat
  failedFiles : List String
  gpt35Success : Nat
  fouroSuccess : Nat
deriving DecidableEq, Repr

/-- The initial module-level `summary` value. -/
def zeroSummary : Summary := ⟨0, 0, 0, 0, [], 0, 0⟩

/-- A performed file-system mutation. -/
inductive FsOp where
  | write (path : String) (content : String)
  | unlink (path : String)
deriving DecidableEq, Repr

/-- Per-file environment: outcomes of the effects `processFile` performs. -/
structure FileEnv where
  readOk : Bool
  isReact : Bool
  primary : Option String
  fallback : Option String
  writeOk : Bool
  unlinkOk : Bool
deriving DecidableEq, Repr

/-- Observable state threaded through the traversal. -/
structure TravState where
  summary : Summary
  ops : List FsOp
  calls : List (String × String)
deriving DecidableEq, Repr

/-- The all-zero starting state. -/
def zeroState : TravState := ⟨zeroSummary, [], []⟩

/-- The result of the successful model call, as `processFile` sees it:
the primary result if the primary `refactorCode` call returned, else the
fallback result. -/
def modelResult (e : FileEnv) : Option String :=
  match e.primary with
  | some code => some code
  | none => e.fallback

/-- The output path `path.join(parsedPath.dir, parsedPath.name + newExtension)`
with `newExtension = isReactComponent ? ".tsx" : ".ts"`. -/
def newFilePath (filePath : String) (isReact : Bool) : String :=
  pathJoin (dirOf filePath) (baseNameOf filePath ++ (if isReact then ".tsx" else ".ts"))

/-- The second half of `processFile`: write the refactored content to the
new path, delete the original, bump `succeeded` (and
`failedInitiallyButSucceeded` when the primary attempt had failed); any
error in this block is caught and recorded as a failure of the file. -/
def writePhase (filePath : String) (isReact : Bool) (code : String)
    (initialAttemptFailed writeOk unlinkOk : Bool) (st : TravState) :
    TravState × Bool :=
  let newPath := newFilePath filePath isReact
  if writeOk then
    let st1 : TravState := { st with ops := st.ops ++ [FsOp.write newPath code] }
    if unlinkOk then
      let st2 : TravState := { st1 with ops := st1.ops ++ [FsOp.unlink filePath] }
      let s := st2.summary
      let s := { s with succeeded := s.succeeded + 1 }
      let s := if initialAttemptFailed then
          { s with failedInitiallyButSucceeded := s.failedInitiallyButSucceeded + 1 }
        else s
      ({ st2 with summary := s }, false)
    else
      ({ st1 with summary := { st1.summary with
          failed := st1.summary.failed + 1,
          failedFiles := st1.summary.failedFiles ++ [filePath] } }, false)
  else
    ({ st with summary := { st.summary with
        failed := st.summary.failed + 1,
        failedFiles := st.summary.failedFiles ++ [filePath] } }, false)

/-- `processFile(filePath)`. Increments `attempted`, reads the file (a read
error propagates uncaught), tries the primary model, on any failure tries
the fallback model exactly once, and on a model success runs the write
phase; when both model calls fail the file is recorded in `failed` /
`failedFiles` and the function returns without touching the file system. -/
def processFileSt (filePath : String) (e : FileEnv) (st : TravState) :
    TravState × Bool :=
  let st0 : TravState :=
    { st with summary := { st.summary with attempted := st.summary.attempted + 1 } }
  if e.readOk then
    let st1 : TravState := { st0 with calls := st0.calls ++ [(filePath, "gpt-3.5-turbo")] }
    match e.primary with
    | some code =>
      let st2 : TravState := { st1 with summary :=
        { st1.summary with gpt35Success := st1.summary.gpt35Success + 1 } }
      writePhase filePath e.isReact code false e.writeOk e.unlinkOk st2
    | none =>
      let st2 : TravState := { st1 with calls := st1.calls ++ [(filePath, "gpt-4o")] }
      match e.fallback with
      | some code =>
        let st3 : TravState := { st2 with summary :=
          { st2.summary with fouroSuccess := st2.summary.fouroSuccess + 1 } }
        writePhase filePath e.isReact code true e.writeOk e.unlinkOk st3
      | none =>
        ({ st2 with summary := { st2.summary with
            failed := st2.summary.failed + 1,
            failedFiles := st2.summary.failedFiles ++ [filePath] } }, false)
  else
    (st0, true)

/-! A directory tree as `fs.readdirSync`/`fs.statSync` present it.
`badDir` is a directory whose `readdirSync` call throws. The environment
type `ε` carries the per-file effect outcomes. -/
mutual
inductive Entry (ε : Type) where
  | file (name : String) (env : ε)
  | dir (name : String) (entries : EntryList ε)
  | badDir (name : String)
inductive EntryList (ε : Type) where
  | nil
  | cons (e : Entry ε) (rest : EntryList ε)
end

/-- Concatenation of entry lists. -/
def EntryList.append {ε : Type} : EntryList ε → EntryList ε → EntryList ε
  | EntryList.nil, l => l
  | EntryList.cons e r, l => EntryList.cons e (r.append l)

mutual
/-- `processDirectory(directory)` (and the body of its `for` loop).
Directories recurse; a file whose full path ends in `.js` or `.jsx` but not
in `.test.js` is dispatched to `processFile`; a path ending in `.test.js`
is logged as skipped; other files are ignored. There is no `try`/`catch`:
an exception (an unreadable directory, or a file read error inside
`processFile`) propagates, abandoning all remaining entries — the `true`
component of the result reports that propagation. -/
def procEntry (dirPath : String) (st : TravState) : Entry FileEnv → TravState × Bool
  | Entry.file name e =>
    let fullPath := pathJoin dirPath name
    if (strEndsWith fullPath ".js" || strEndsWith fullPath ".jsx")
        && !(strEndsWith fullPath ".test.js") then
      processFileSt fullPath e st
    else
      (st, false)
  | Entry.dir name entries => procEntries (pathJoin dirPath name) st entries
  | Entry.badDir _ => (st, true)
def procEntries (dirPath : String) (st : TravState) : EntryList FileEnv → TravState × Bool
  | EntryList.nil => (st, false)
  | EntryList.cons e rest =>
    let r := procEntry dirPath st e
    if r.2 then (r.1, true) else procEntries dirPath r.1 rest
end

/-! ### Variant pipeline — `src/refactorFunctions.ts` and `src/refactorFiles.ts`

`refactorReact`/`refactorJavascript` (refactorFunctions.ts) try
`gpt-3.5-turbo` then `gpt-4` and, when either returns non-empty content,
write that content BACK TO THE ORIGINAL `filePath` (`fs.writeFileSync(filePath, ...)`);
they never create a differently named file and never delete anything, and
they return `undefined`.

`processFiles` (refactorFiles.ts) walks the tree inside a `try` whose
`catch` logs and swallows directory-read errors; eligible files have
`path.extname(name) === ".js"` and do not end in `.test.js`; a file-level
error (e.g. a failed read or write) is caught per file and recorded in
`metrics`. Because the refactor functions return `undefined`, the
`if (result)` block never runs and `attempted`/`success`/`retried` are
never incremented. -/

/-- JS truthiness of the extracted `content ?? undefined` value: an empty
string is falsy and triggers the `No output from <model>` throw. -/
def jsTruthy : Option String → Option String
  | some s => if s = "" then none else some s
  | none => none

/-- `refactorReact(filePath, fileContent)` from refactorFunctions.ts,
as the list of file-system writes it performs. `first`/`second` are the
contents returned by the `gpt-3.5-turbo` and `gpt-4` calls (`none` when
the call throws; the missing-choice `TypeError` is likewise caught). -/
def refactorReactFns (first second : Option String) (filePath : String) : List FsOp :=
  match jsTruthy first with
  | some result => [FsOp.write filePath result]
  | none =>
    match jsTruthy second with
    | some result => [FsOp.write filePath result]
    | none => []

/-- `refactorJavascript(filePath, fileContent)` from refactorFunctions.ts:
same control flow as `refactorReact`, different prompt. -/
def refactorJavascriptFns (first second : Option String) (filePath : String) : List FsOp :=
  match jsTruthy first with
  | some result => [FsOp.write filePath result]
  | none =>
    match jsTruthy second with
    | some result => [FsOp.write filePath result]
    | none => []

/-- The `Metrics` record of refactorFiles.ts. -/
structure Metrics where
  attempted : Nat
  success : Nat
  retried : Nat
  failed : Nat
  failedFiles : List String
deriving DecidableEq, Repr

/-- The initial `metrics` value. -/
def zeroMetrics : Metrics := ⟨0, 0, 0, 0, []⟩

/-- Per-file effect outcomes for the refactorFiles.ts pipeline. `isReact`
is the value of the `isReactComponent` content regex; `first`/`second` are
the two model calls' contents as in `refactorReactFns`; `writeOk` is
whether the in-place `fs.writeFileSync` (if reached) succeeds. -/
structure RFFileEnv where
  readOk : Bool
  isReact : Bool
  first : Option String
  second : Option String
  writeOk : Bool
deriving DecidableEq, Repr

/-- State of one refactorFiles.ts run. -/
structure RFState where
  metrics : Metrics
  ops : List FsOp
deriving DecidableEq, Repr

mutual
/-- `processFiles(dir)` and the body of its entry loop. A `badDir` models a
directory whose `readdir` throws: the surrounding `catch (dirErr)` logs and
swallows it, so it contributes nothing and traversal continues. A file
error (read failure, or write failure inside the refactor function) is
caught by the inner `catch (fileErr)` and bumps `failed`/`failedFiles`.
On a normal return of the refactor function `result` is `undefined`, so
the metrics are not touched. -/
def rfEntry (dirPath : String) (st : RFState) : Entry RFFileEnv → RFState
  | Entry.file name e =>
    let fullPath := pathJoin dirPath name
    if extnameOf name = ".js" then
      if strEndsWith name ".test.js" then st
      else if e.readOk then
        let ops := if e.isReact then refactorReactFns e.first e.second fullPath
          else refactorJavascriptFns e.first e.second fullPath
        if ops = [] then st
        else if e.writeOk then { st with ops := st.ops ++ ops }
        else { st with metrics := { st.metrics with
            failed := st.metrics.failed + 1,
            failedFiles := st.metrics.failedFiles ++ [fullPath] } }
      else { st with metrics := { st.metrics with
          failed := st.metrics.failed + 1,
          failedFiles := st.metrics.failedFiles ++ [fullPath] } }
    else st
  | Entry.dir name entries => rfEntries (pathJoin dirPath name) st entries
  | Entry.badDir _ => st
def rfEntries (dirPath : String) (st : RFState) : EntryList RFFileEnv → RFState
  | EntryList.nil => st
  | EntryList.cons e rest => rfEntries dirPath (rfEntry dirPath st e) rest
end

/-! ### Derived predicates and concrete inputs used by the verification -/

/-- The run-summary invariant of the spec:
`attempted == succeeded + failed` and `failedFiles.length == failed`. -/
def summaryInv (s : Summary) : Prop :=
  s.attempted = s.succeeded + s.failed ∧ s.failedFiles.length = s.failed

/-- Per-attempt jitter that is always zero (a legal value of
`Math.floor(Math.random() * 1000)`). -/
def zeroJitter : Nat → Nat := fun _ => 0

/-- An API that answers every attempt with HTTP 429. -/
def all429Outcome : Nat → ApiOutcome := fun _ => ApiOutcome.err (some 429)

/-- An API that answers every attempt with a 500 error. -/
def status500Outcome : Nat → ApiOutcome := fun _ => ApiOutcome.err (some 500)

/-- An API that answers every attempt with a successful response carrying
no choices at all. -/
def emptyRespOutcome : Nat → ApiOutcome := fun _ => ApiOutcome.ok ⟨[]⟩

/-- An API whose first attempt (numbered 1, as `attemptRefactorWithModel`
numbers them) fails with status 500 and whose second attempt succeeds. -/
def cex3Outcome : Nat → ApiOutcome := fun n =>
  if n = 1 then ApiOutcome.err (some 500) else ApiOutcome.ok ⟨[some "code"]⟩

/-- A file for which both model calls fail. -/
def envBothFail : FileEnv := ⟨true, false, none, none, true, true⟩

/-- A React-classified file for which the primary model call succeeds and
all file-system operations succeed. -/
def envPrimaryOk : FileEnv := ⟨true, true, some "out", none, true, true⟩

/-- A file for which the primary model call succeeds but the subsequent
`fs.writeFileSync` fails. -/
def envWriteFail : FileEnv := ⟨true, false, some "out", none, false, true⟩

/-- A directory whose `readdirSync` throws, followed by an eligible sibling
file that would succeed. -/
def dirErrCexTree : EntryList FileEnv :=
  EntryList.cons (Entry.badDir "sub")
    (EntryList.cons (Entry.file "a.js" envPrimaryOk) EntryList.nil)

/-- A one-file tree whose file fails on both models. -/
def demoTree : EntryList FileEnv :=
  EntryList.cons (Entry.file "a.js" envBothFail) EntryList.nil

/-! ### Helper lemmas -/

/-- `strEndsWith` is the list-suffix relation on the characters. -/
theorem strEndsWith_iff {s t : String} :
    strEndsWith s t = true ↔ t.toList <:+ s.toList := by
  simp [strEndsWith, List.isSuffixOf_iff_suffix]

/-- A path ending in `.test.jsx` ends in `.jsx` but not in `.test.js`. -/
theorem ends_test_jsx {s : String} (h : strEndsWith s ".test.jsx" = true) :
    strEndsWith s ".jsx" = true ∧ strEndsWith s ".test.js" = false := by
  have h' : (".test.jsx").toList <:+ s.toList := strEndsWith_iff.mp h
  refine ⟨strEndsWith_iff.mpr (List.IsSuffix.trans (by decide) h'), ?_⟩
  cases hq : strEndsWith s ".test.js" with
  | false => rfl
  | true =>
    exfalso
    have h2 : (".test.js").toList <:+ s.toList := strEndsWith_iff.mp hq
    rcases List.suffix_or_suffix_of_suffix h2 h' with hc | hc
    · exact absurd hc (by decide)
    · exact absurd hc (by decide)

/-- `processFile` increments `attempted` exactly once, unconditionally
(it is the first statement of the function). -/
theorem processFileSt_attempted (fp : String) (e : FileEnv) (st : TravState) :
    (processFileSt fp e st).1.summary.attempted = st.summary.attempted + 1 := by
  rcases e with ⟨ro, ir, pr, fb, wo, uo⟩
  cases ro <;> cases pr <;> cases fb <;> cases wo <;> cases uo <;>
    simp [processFileSt, writePhase]

/-- A list element just past a known position. -/
theorem get_append_length {α : Type} (l t : List α) (x : α) :
    (l ++ x :: t).get? l.length = some x := by
  induction l with
  | nil => rfl
  | cons a l ih => simpa using ih

/-- When the read succeeds, the first completion call `processFile` issues
is for the primary model `gpt-3.5-turbo`. -/
theorem processFileSt_first_call (fp : String) (e : FileEnv) (st : TravState)
    (hr : e.readOk = true) :
    (processFileSt fp e st).1.calls.get? st.calls.length
      = some (fp, "gpt-3.5-turbo") := by
  rcases e with ⟨ro, ir, pr, fb, wo, uo⟩
  subst hr
  cases pr <;> cases fb <;> cases wo <;> cases uo <;>
    simp [processFileSt, writePhase, get_append_length, List.append_assoc] <;>
    simpa [List.append_assoc] using get_append_length st.calls _ (fp, "gpt-3.5-turbo")

/-- Every `processFile` run that returns normally increments `attempted`
by one and exactly one of `succeeded`/`failed`, pushing onto `failedFiles`
exactly in the `failed` case; hence it preserves the summary invariant. -/
theorem processFileSt_inv (fp : String) (e : FileEnv) (st : TravState)
    (hc : (processFileSt fp e st).2 = false) (hInv : summaryInv st.summary) :
    summaryInv (processFileSt fp e st).1.summary := by
  rcases hInv with ⟨h1, h2⟩
  rcases e with ⟨ro, ir, pr, fb, wo, uo⟩
  cases ro <;> cases pr <;> cases fb <;> cases wo <;> cases uo <;>
    simp_all [processFileSt, writePhase, summaryInv] <;> omega

mutual
/-- `processDirectory` preserves the summary invariant across one entry,
provided no exception propagated. -/
theorem inv_procEntry (dirPath : String) (st : TravState) (e : Entry FileEnv)
    (hInv : summaryInv st.summary) (hc : (procEntry dirPath st e).2 = false) :
    summaryInv (procEntry dirPath st e).1.summary :=
  match e with
  | Entry.file name fe => by
    by_cases helig : (strEndsWith (pathJoin dirPath name) ".js"
        || strEndsWith (pathJoin dirPath name) ".jsx")
        && !(strEndsWith (pathJoin dirPath name) ".test.js")
    · have hd : procEntry dirPath st (Entry.file name fe)
          = processFileSt (pathJoin dirPath name) fe st := by
        simp [procEntry, helig]
      rw [hd] at hc ⊢
      exact processFileSt_inv _ _ _ hc hInv
    · have hd : procEntry dirPath st (Entry.file name fe) = (st, false) := by
        simp [procEntry, helig]
      rw [hd]
      exact hInv
  | Entry.dir name entries => by
    have hd : procEntry dirPath st (Entry.dir name entries)
        = procEntries (pathJoin dirPath name) st entries := rfl
    rw [hd] at hc ⊢
    exact inv_procEntries (pathJoin dirPath name) st entries hInv hc
  | Entry.badDir name => by
    simp [procEntry] at hc

/-- `processDirectory` preserves the summary invariant across a list of
entries, provided no exception propagated. -/
theorem inv_procEntries (dirPath : String) (st : TravState)
    (l : EntryList FileEnv)
    (hInv : summaryInv st.summary) (hc : (procEntries dirPath st l).2 = false) :
    summaryInv (procEntries dirPath st l).1.summary :=
  match l with
  | EntryList.nil => hInv
  | EntryList.cons e rest => by
    by_cases hab : (procEntry dirPath st e).2
    · have hd : procEntries dirPath st (EntryList.cons e rest)
          = ((procEntry dirPath st e).1, true) := by
        simp [procEntries, hab]
      rw [hd] at hc
      simp at hc
    · have hd : procEntries dirPath st (EntryList.cons e rest)
          = procEntries dirPath (procEntry dirPath st e).1 rest := by
        simp [procEntries, hab]
      rw [hd] at hc ⊢
      have hab' : (procEntry dirPath st e).2 = false := by
        simpa using hab
      exact inv_procEntries dirPath (procEntry dirPath st e).1 rest
        (inv_procEntry dirPath st e hInv hab') hc
end

/-- Unfolding: a successful response returns at once. -/
theorem callLoop_ok (outcome : Nat → ApiOutcome) (jitter : Nat → Nat)
    (baseDelay a r : Nat) (resp : ChatCompletionResponse)
    (h : outcome a = ApiOutcome.ok resp) :
    callLoop outcome jitter baseDelay a (r + 1)
      = ⟨CallResult.success resp, 1, []⟩ := by
  rw [callLoop, h]

/-- Unfolding: a 429 answer sleeps `baseDelay * 2 ^ attempt + jitter` and
continues with the next attempt. -/
theorem callLoop_429 (outcome : Nat → ApiOutcome) (jitter : Nat → Nat)
    (baseDelay a r : Nat) (h : outcome a = ApiOutcome.err (some 429)) :
    callLoop outcome jitter baseDelay a (r + 1)
      = ⟨(callLoop outcome jitter baseDelay (a + 1) r).result,
         (callLoop outcome jitter baseDelay (a + 1) r).requests + 1,
         (baseDelay * 2 ^ a + jitter a)
           :: (callLoop outcome jitter baseDelay (a + 1) r).sleeps⟩ := by
  rw [callLoop, h]
  rfl

/-- Unfolding: a non-429 error is rethrown at once. -/
theorem callLoop_err (outcome : Nat → ApiOutcome) (jitter : Nat → Nat)
    (baseDelay a r : Nat) (s : Option Nat)
    (h : outcome a = ApiOutcome.err s) (h429 : s ≠ some 429) :
    callLoop outcome jitter baseDelay a (r + 1)
      = ⟨CallResult.apiError s, 1, []⟩ := by
  rw [callLoop, h]
  simp [h429]

/-- Each backoff sleep of the retry loop, at position `i` of the sleep
list, is exactly `baseDelay * 2 ^ (a + i) + jitter (a + i)` where `a` is
the loop's starting attempt index: sleeps happen on consecutive 429
attempts, in order. -/
theorem callLoop_sleeps_get (outcome : Nat → ApiOutcome) (jitter : Nat → Nat)
    (baseDelay : Nat) :
    ∀ (r a i d : Nat),
      (callLoop outcome jitter baseDelay a r).sleeps.get? i = some d →
      d = baseDelay * 2 ^ (a + i) + jitter (a + i) := by
  intro r
  induction r with
  | zero => intro a i d hd; simp [callLoop] at hd
  | succ r ih =>
    intro a i d hd
    cases ho : outcome a with
    | ok resp => rw [callLoop_ok outcome jitter baseDelay a r resp ho] at hd; simp at hd
    | err status =>
      by_cases h429 : status = some 429
      · subst h429
        rw [callLoop_429 outcome jitter baseDelay a r ho] at hd
        cases i with
        | zero => simp only [Nat.add_zero]; simp at hd; omega
        | succ i =>
          simp only [List.get?] at hd
          have := ih (a + 1) i d hd
          rw [this]
          ring_nf
      · rw [callLoop_err outcome jitter baseDelay a r status ho h429] at hd
        simp at hd

/-- The retry loop issues at most `r` requests. -/
theorem callLoop_requests_le (outcome : Nat → ApiOutcome) (jitter : Nat → Nat)
    (baseDelay : Nat) :
    ∀ (r a : Nat), (callLoop outcome jitter baseDelay a r).requests ≤ r := by
  intro r
  induction r with
  | zero => intro a; simp [callLoop]
  | succ r ih =>
    intro a
    cases ho : outcome a with
    | ok resp => rw [callLoop_ok outcome jitter baseDelay a r resp ho]; simp
    | err status =>
      by_cases h429 : status = some 429
      · subst h429
        rw [callLoop_429 outcome jitter baseDelay a r ho]
        have := ih (a + 1)
        simpa using Nat.add_le_add_right this 1
      · rw [callLoop_err outcome jitter baseDelay a r status ho h429]; simp

/-- When every attempt the loop can make answers 429, the loop issues all
`r` requests and ends in the retries-exhausted error. -/
theorem callLoop_all429 (outcome : Nat → ApiOutcome) (jitter : Nat → Nat)
    (baseDelay : Nat) :
    ∀ (r a : Nat), (∀ i, i < r → outcome (a + i) = ApiOutcome.err (some 429)) →
      (callLoop outcome jitter baseDelay a r).result = CallResult.retriesExhausted
      ∧ (callLoop outcome jitter baseDelay a r).requests = r := by
  intro r
  induction r with
  | zero => intro a _; simp [callLoop]
  | succ r ih =>
    intro a hall
    have h0 : outcome a = ApiOutcome.err (some 429) := by
      simpa using hall 0 (Nat.succ_pos r)
    have hrest := ih (a + 1) (fun i hi => by
      have := hall (i + 1) (Nat.succ_lt_succ hi)
      simpa [Nat.add_assoc, Nat.add_comm 1 i] using this)
    rw [callLoop_429 outcome jitter baseDelay a r h0]
    exact ⟨hrest.1, by simp [hrest.2]⟩

/-- The retry loop issues at least one request when it may iterate. -/
theorem callLoop_requests_pos (outcome : Nat → ApiOutcome) (jitter : Nat → Nat)
    (baseDelay : Nat) (a r : Nat) (hr : 1 ≤ r) :
    1 ≤ (callLoop outcome jitter baseDelay a r).requests := by
  cases r with
  | zero => omega
  | succ r =>
    cases ho : outcome a with
    | ok resp => rw [callLoop_ok outcome jitter baseDelay a r resp ho]
    | err status =>
      by_cases h429 : status = some 429
      · subst h429
        rw [callLoop_429 outcome jitter baseDelay a r ho]
        simp
      · rw [callLoop_err outcome jitter baseDelay a r status ho h429]

/-- A run of consecutive 429 answers through attempt `a + k` forces at
least `k + 1` sleeps, and at least `min r (k + 2)` requests (the retry
after each 429, capped by the remaining iteration budget). -/
theorem callLoop_429_run (outcome : Nat → ApiOutcome) (jitter : Nat → Nat)
    (baseDelay : Nat) :
    ∀ (k a r : Nat), k < r →
      (∀ i, i ≤ k → outcome (a + i) = ApiOutcome.err (some 429)) →
      k + 1 ≤ (callLoop outcome jitter baseDelay a r).sleeps.length
      ∧ min r (k + 2) ≤ (callLoop outcome jitter baseDelay a r).requests := by
  intro k
  induction k with
  | zero =>
    intro a r hkr hall
    have h0 : outcome a = ApiOutcome.err (some 429) := by
      simpa using hall 0 (Nat.le_refl 0)
    cases r with
    | zero => omega
    | succ r =>
      rw [callLoop_429 outcome jitter baseDelay a r h0]
      refine ⟨by simp, ?_⟩
      cases r with
      | zero => simp [callLoop]
      | succ r =>
        have := callLoop_requests_pos outcome jitter baseDelay (a + 1) (r + 1)
          (Nat.succ_le_succ (Nat.zero_le r))
        simp only [min_def]
        split <;> omega
  | succ k ih =>
    intro a r hkr hall
    have h0 : outcome a = ApiOutcome.err (some 429) := by
      simpa using hall 0 (Nat.zero_le (k + 1))
    cases r with
    | zero => omega
    | succ r =>
      have hrest := ih (a + 1) r (by omega) (fun i hi => by
        have := hall (i + 1) (Nat.succ_le_succ hi)
        simpa [Nat.add_assoc, Nat.add_comm 1 i] using this)
      rw [callLoop_429 outcome jitter baseDelay a r h0]
      constructor
      · simpa using Nat.add_le_add_right hrest.1 1
      · have h2 := hrest.2
        simp only [min_def] at h2 ⊢
        split at h2 <;> split <;> omega


/-- `processFiles` over a concatenation of sibling entry lists processes
the first list, then the second, from the resulting state. -/
theorem rfEntries_append (dirPath : String) (st : RFState)
    (l1 l2 : EntryList RFFileEnv) :
    rfEntries dirPath st (l1.append l2)
      = rfEntries dirPath (rfEntries dirPath st l1) l2 := by
  match l1 with
  | EntryList.nil => rfl
  | EntryList.cons e r =>
    show rfEntries dirPath (rfEntry dirPath st e) (r.append l2) = _
    rw [rfEntries_append dirPath (rfEntry dirPath st e) r l2]
    rfl

/-- Unfolding: a failed attempt of `attemptRefactorWithModel` is caught,
waits the fixed delay when attempts remain, and the loop continues with
the next attempt. -/
theorem attemptLoop_fail (outcome : Nat → ApiOutcome) (m d a r : Nat)
    (h : extractNonempty (outcome a) = none) :
    attemptLoop outcome m d a (r + 1)
      = ⟨(attemptLoop outcome m d (a + 1) r).result,
         (attemptLoop outcome m d (a + 1) r).requests + 1,
         (if a < m then [d] else []) ++ (attemptLoop outcome m d (a + 1) r).delays⟩ := by
  rw [attemptLoop, h]


/-! ### Claim theorems -/

/-- Claim C1: for every file whose primary-model refactoring attempt fails
(for any reason), `processFile` attempts the fallback model `gpt-4o`
exactly once; if the fallback also fails, the file is recorded in
`failed`/`failedFiles`, no output file is written, and the original input
file is not deleted. -/
theorem processFile_fallback_once_both_fail (filePath : String) (e : FileEnv)
    (st : TravState) (hr : e.readOk = true) (hp : e.primary = none) :
    (processFileSt filePath e st).1.calls
      = st.calls ++ [(filePath, "gpt-3.5-turbo"), (filePath, "gpt-4o")]
    ∧ (e.fallback = none →
        (processFileSt filePath e st).1.summary.failed = st.summary.failed + 1
        ∧ (processFileSt filePath e st).1.summary.failedFiles
            = st.summary.failedFiles ++ [filePath]
        ∧ (processFileSt filePath e st).1.ops = st.ops
        ∧ (processFileSt filePath e st).2 = false) := by
  rcases e with ⟨ro, ir, pr, fb, wo, uo⟩
  subst hr
  subst hp
  cases fb <;> cases wo <;> cases uo <;>
    simp [processFileSt, writePhase, List.append_assoc]

/-- Witness for C1 at a concrete file whose two model calls both fail. -/
theorem processFile_fallback_once_both_fail_witness :
    envBothFail.readOk = true ∧ envBothFail.primary = none
    ∧ (processFileSt "a.js" envBothFail zeroState).1.calls
        = zeroState.calls ++ [("a.js", "gpt-3.5-turbo"), ("a.js", "gpt-4o")]
    ∧ (processFileSt "a.js" envBothFail zeroState).1.summary.failed
        = zeroState.summary.failed + 1
    ∧ (processFileSt "a.js" envBothFail zeroState).1.ops = zeroState.ops :=
  ⟨rfl, rfl,
    (processFile_fallback_once_both_fail "a.js" envBothFail zeroState rfl rfl).1,
    ((processFile_fallback_once_both_fail "a.js" envBothFail zeroState rfl rfl).2 rfl).1,
    ((processFile_fallback_once_both_fail "a.js" envBothFail zeroState rfl rfl).2 rfl).2.2.1⟩

/-- Claim C6: after any complete traversal (one in which no exception
propagated) of any input directory tree, the summary satisfies
`attempted = succeeded + failed` and `failedFiles.length = failed`,
starting from any state that satisfies the invariant (in particular the
zero state the process starts with). -/
theorem summary_invariant_after_traversal (root : EntryList FileEnv)
    (dirPath : String) (st : TravState) (hInv : summaryInv st.summary)
    (hc : (procEntries dirPath st root).2 = false) :
    summaryInv (procEntries dirPath st root).1.summary :=
  inv_procEntries dirPath st root hInv hc

/-- Witness for C6 on a concrete one-file tree whose file fails. -/
theorem summary_invariant_after_traversal_witness :
    summaryInv zeroState.summary
    ∧ (procEntries "root" zeroState demoTree).2 = false
    ∧ summaryInv (procEntries "root" zeroState demoTree).1.summary :=
  ⟨⟨rfl, rfl⟩, rfl,
    summary_invariant_after_traversal demoTree "root" zeroState ⟨rfl, rfl⟩ rfl⟩

/-- Counterexample to claim C7: in `fileProcessor.processDirectory` a
directory whose entries cannot be read does NOT abort only that subtree —
there is no `try`/`catch`, so the error propagates (the `true` flag),
sibling entries after it are never traversed (the eligible sibling `a.js`
is never attempted and no completion call is made), and the run aborts. -/
theorem processDirectory_dir_error_aborts_cex :
    procEntries "root" zeroState dirErrCexTree = (zeroState, true)
    ∧ (procEntries "root" zeroState dirErrCexTree).1.summary.attempted = 0
    ∧ (procEntries "root" zeroState dirErrCexTree).1.calls = [] :=
  ⟨by decide, by decide, by decide⟩

/-- Claim C7 as amended: in `refactorFiles.processFiles` a directory-read
error is caught, logged and swallowed, aborting only that subtree:
traversal is exactly the traversal of the surrounding siblings, and the
run never aborts (`rfEntries` is a total function into plain states). -/
theorem processFiles_dir_error_isolated (dirPath : String) (st : RFState)
    (pre rest : EntryList RFFileEnv) (name : String) :
    rfEntries dirPath st
        (pre.append (EntryList.cons (Entry.badDir name) rest))
      = rfEntries dirPath (rfEntries dirPath st pre) rest := by
  rw [rfEntries_append]
  rfl

/-- Claim C8: a file whose full path matches the test-file naming pattern
`.test.js` is skipped entirely by `processDirectory`: the state is
returned unchanged, so no completion call is issued and none of the
summary counters change. -/
theorem testfile_skipped (dirPath name : String) (e : FileEnv)
    (st : TravState)
    (h : strEndsWith (pathJoin dirPath name) ".test.js" = true) :
    procEntry dirPath st (Entry.file name e) = (st, false) := by
  simp [procEntry, h]

/-- Witness for C8 at a concrete `.test.js` file. -/
theorem testfile_skipped_witness :
    strEndsWith (pathJoin "src" "a.test.js") ".test.js" = true
    ∧ procEntry "src" zeroState (Entry.file "a.test.js" envPrimaryOk)
        = (zeroState, false) :=
  ⟨by decide,
    testfile_skipped "src" "a.test.js" envPrimaryOk zeroState (by decide)⟩

/-- Claim C9: `gpt35Success` is incremented as soon as the primary model
call returns, before the output file is written; when the write fails the
per-model counter is still incremented while the file is counted failed,
so `gpt35Success + fouroSuccess` can exceed `succeeded` (shown concretely
in the final conjunct). -/
theorem perModel_counter_incremented_before_write (filePath : String)
    (e : FileEnv) (st : TravState) (code : String)
    (hr : e.readOk = true) (hp : e.primary = some code) (hw : e.writeOk = false) :
    (processFileSt filePath e st).1.summary.gpt35Success
        = st.summary.gpt35Success + 1
    ∧ (processFileSt filePath e st).1.summary.succeeded = st.summary.succeeded
    ∧ (processFileSt filePath e st).1.summary.failed = st.summary.failed + 1
    ∧ (processFileSt "a.js" envWriteFail zeroState).1.summary.succeeded
        < (processFileSt "a.js" envWriteFail zeroState).1.summary.gpt35Success
          + (processFileSt "a.js" envWriteFail zeroState).1.summary.fouroSuccess := by
  rcases e with ⟨ro, ir, pr, fb, wo, uo⟩
  subst hr
  subst hw
  cases pr with
  | none => exact absurd hp (by simp)
  | some c =>
    cases fb <;> cases uo <;>
      exact ⟨by simp [processFileSt, writePhase],
        by simp [processFileSt, writePhase],
        by simp [processFileSt, writePhase],
        by decide⟩

/-- Witness for C9 at a concrete file whose model call succeeds but whose
write fails. -/
theorem perModel_counter_incremented_before_write_witness :
    envWriteFail.readOk = true ∧ envWriteFail.primary = some "out"
    ∧ envWriteFail.writeOk = false
    ∧ (processFileSt "a.js" envWriteFail zeroState).1.summary.gpt35Success
        = zeroState.summary.gpt35Success + 1
    ∧ (processFileSt "a.js" envWriteFail zeroState).1.summary.succeeded
        = zeroState.summary.succeeded
    ∧ (processFileSt "a.js" envWriteFail zeroState).1.summary.failed
        = zeroState.summary.failed + 1 :=
  ⟨rfl, rfl, rfl,
    (perModel_counter_incremented_before_write "a.js" envWriteFail zeroState
      "out" rfl rfl rfl).1,
    (perModel_counter_incremented_before_write "a.js" envWriteFail zeroState
      "out" rfl rfl rfl).2.1,
    (perModel_counter_incremented_before_write "a.js" envWriteFail zeroState
      "out" rfl rfl rfl).2.2.1⟩

/-- Claim C10: a file whose full path ends in `.test.jsx` is NOT skipped:
the eligibility check accepts any `.jsx` path and the exclusion pattern
only matches paths ending in `.test.js`, so the file is dispatched to
`processFile` unchanged — it is counted in `attempted` and (when the read
succeeds) a `gpt-3.5-turbo` completion call is issued for it. -/
theorem test_jsx_not_skipped (dirPath name : String) (e : FileEnv)
    (st : TravState)
    (h : strEndsWith (pathJoin dirPath name) ".test.jsx" = true) :
    procEntry dirPath st (Entry.file name e)
        = processFileSt (pathJoin dirPath name) e st
    ∧ (procEntry dirPath st (Entry.file name e)).1.summary.attempted
        = st.summary.attempted + 1
    ∧ (e.readOk = true →
        (procEntry dirPath st (Entry.file name e)).1.calls.get? st.calls.length
          = some (pathJoin dirPath name, "gpt-3.5-turbo")) := by
  obtain ⟨h1, h2⟩ := ends_test_jsx h
  have hd : procEntry dirPath st (Entry.file name e)
      = processFileSt (pathJoin dirPath name) e st := by
    simp [procEntry, h1, h2]
  refine ⟨hd, ?_, ?_⟩
  · rw [hd]
    exact processFileSt_attempted (pathJoin dirPath name) e st
  · intro hr
    rw [hd]
    exact processFileSt_first_call (pathJoin dirPath name) e st hr

/-- Witness for C10 at a concrete `.test.jsx` file. -/
theorem test_jsx_not_skipped_witness :
    strEndsWith (pathJoin "src" "a.test.jsx") ".test.jsx" = true
    ∧ procEntry "src" zeroState (Entry.file "a.test.jsx" envPrimaryOk)
        = processFileSt (pathJoin "src" "a.test.jsx") envPrimaryOk zeroState
    ∧ (procEntry "src" zeroState (Entry.file "a.test.jsx" envPrimaryOk)).1.summary.attempted
        = zeroState.summary.attempted + 1 :=
  ⟨by decide,
    (test_jsx_not_skipped "src" "a.test.jsx" envPrimaryOk zeroState (by decide)).1,
    (test_jsx_not_skipped "src" "a.test.jsx" envPrimaryOk zeroState (by decide)).2.1⟩


/-- Claim C2: `callOpenAIWithRetries` issues at most 5 requests; if every
attempt receives HTTP 429 it sleeps and retries until the cap and then
fails with the retries-exhausted error; every recorded backoff delay for
0-indexed attempt `n` lies within `[2000 * 2 ^ n, 2000 * 2 ^ n + 1000)`
milliseconds; and a run of consecutive 429 responses through attempt `k`
forces a sleep for each of them and a subsequent retry (within the cap). -/
theorem callOpenAIWithRetries_backoff (outcome : Nat → ApiOutcome)
    (jitter : Nat → Nat) (hj : ∀ n, jitter n < 1000) :
    (callOpenAIWithRetries outcome jitter).requests ≤ 5
    ∧ ((∀ i, i < 5 → outcome i = ApiOutcome.err (some 429)) →
        (callOpenAIWithRetries outcome jitter).result = CallResult.retriesExhausted
        ∧ (callOpenAIWithRetries outcome jitter).requests = 5)
    ∧ (∀ i d, (callOpenAIWithRetries outcome jitter).sleeps.get? i = some d →
        2000 * 2 ^ i ≤ d ∧ d < 2000 * 2 ^ i + 1000)
    ∧ (∀ k, k < 5 → (∀ i, i ≤ k → outcome i = ApiOutcome.err (some 429)) →
        k + 1 ≤ (callOpenAIWithRetries outcome jitter).sleeps.length
        ∧ min 5 (k + 2) ≤ (callOpenAIWithRetries outcome jitter).requests) := by
  refine ⟨callLoop_requests_le outcome jitter 2000 5 0, ?_, ?_, ?_⟩
  · intro hall
    exact callLoop_all429 outcome jitter 2000 5 0
      (fun i hi => by simpa using hall i hi)
  · intro i d hd
    have := callLoop_sleeps_get outcome jitter 2000 5 0 i d hd
    rw [Nat.zero_add] at this
    subst this
    exact ⟨Nat.le_add_right _ _, Nat.add_lt_add_left (hj i) _⟩
  · intro k hk hall
    exact callLoop_429_run outcome jitter 2000 k 0 5 hk
      (fun i hi => by simpa using hall i hi)

/-- Witness for C2: with zero jitter and an API that always answers 429,
the client makes exactly 5 requests, sleeps the exact exponential backoff
schedule, and fails with the retries-exhausted error. -/
theorem callOpenAIWithRetries_backoff_witness :
    (∀ n, zeroJitter n < 1000)
    ∧ (callOpenAIWithRetries all429Outcome zeroJitter).requests ≤ 5
    ∧ (callOpenAIWithRetries all429Outcome zeroJitter).result
        = CallResult.retriesExhausted
    ∧ (callOpenAIWithRetries all429Outcome zeroJitter).requests = 5
    ∧ (callOpenAIWithRetries all429Outcome zeroJitter).sleeps
        = [2000, 4000, 8000, 16000, 32000] :=
  ⟨fun n => by norm_num [zeroJitter],
    (callOpenAIWithRetries_backoff all429Outcome zeroJitter
      (fun n => by norm_num [zeroJitter])).1,
    ((callOpenAIWithRetries_backoff all429Outcome zeroJitter
      (fun n => by norm_num [zeroJitter])).2.1 (fun i _ => rfl)).1,
    ((callOpenAIWithRetries_backoff all429Outcome zeroJitter
      (fun n => by norm_num [zeroJitter])).2.1 (fun i _ => rfl)).2,
    by decide⟩

/-- Counterexample to claim C3 as stated over all cited code: in the
`config.ts` variant `attemptRefactorWithModel`, an error with status 500
(not 429) on the first attempt does NOT propagate immediately — it is
caught, a fixed 1000 ms delay is waited, and the request is retried (two
requests are issued and the second one's result is returned). -/
theorem attemptRefactorWithModel_retries_non429_cex :
    cex3Outcome 1 = ApiOutcome.err (some 500)
    ∧ attemptRefactorWithModel cex3Outcome 3 1000
        = ⟨some "code", 2, [1000]⟩ :=
  ⟨rfl, by decide⟩

/-- Claim C3 as amended: in the completion client `callOpenAIWithRetries`
a non-429 error propagates immediately — one request, no sleep, the error
returned as-is; the `config.ts` variant `attemptRefactorWithModel` instead
catches every failed attempt and continues its loop with one more request
after it. -/
theorem non429_propagates_immediately (outcome : Nat → ApiOutcome)
    (jitter : Nat → Nat) :
    (∀ s, outcome 0 = ApiOutcome.err s → s ≠ some 429 →
      callOpenAIWithRetries outcome jitter
        = ⟨CallResult.apiError s, 1, []⟩)
    ∧ (∀ (outcome2 : Nat → ApiOutcome) (m d a r : Nat),
        extractNonempty (outcome2 a) = none →
        (attemptLoop outcome2 m d a (r + 1)).requests
          = (attemptLoop outcome2 m d (a + 1) r).requests + 1) := by
  constructor
  · intro s h h429
    exact callLoop_err outcome jitter 2000 0 4 s h h429
  · intro outcome2 m d a r h
    rw [attemptLoop_fail outcome2 m d a r h]

/-- Witness for C3 (amended) at a concrete 500 error. -/
theorem non429_propagates_immediately_witness :
    status500Outcome 0 = ApiOutcome.err (some 500)
    ∧ (some 500 : Option Nat) ≠ some 429
    ∧ callOpenAIWithRetries status500Outcome zeroJitter
        = ⟨CallResult.apiError (some 500), 1, []⟩ :=
  ⟨rfl, by decide,
    (non429_propagates_immediately status500Outcome zeroJitter).1
      (some 500) rfl (by decide)⟩

/-- Claim C4: a completion request that returns successfully but with an
absent choice, an absent message, or empty message content is treated by
`refactorCode` as a failure (the empty-completion error), and
`refactorCode` never returns an empty string as a success. -/
theorem refactorCode_empty_is_failure (outcome : Nat → ApiOutcome)
    (jitter : Nat → Nat) :
    (∀ resp, (callOpenAIWithRetries outcome jitter).result
        = CallResult.success resp →
      (resp.choices.head? = none ∨ resp.choices.head? = some none
        ∨ resp.choices.head? = some (some "")) →
      refactorCode outcome jitter = Except.error RefactorError.emptyCompletion)
    ∧ (∀ s, refactorCode outcome jitter = Except.ok s → s ≠ "") := by
  constructor
  · intro resp hres hempty
    rcases hempty with h | h | h <;>
      simp [refactorCode, hres, h]
  · intro s hs hse
    subst hse
    cases hr : (callOpenAIWithRetries outcome jitter).result with
    | success resp =>
      cases hh : resp.choices.head? with
      | none => simp [refactorCode, hr, hh] at hs
      | some c =>
        cases c with
        | none => simp [refactorCode, hr, hh] at hs
        | some str =>
          by_cases hstr : str = ""
          · simp [refactorCode, hr, hh, hstr] at hs
          · simp [refactorCode, hr, hh, hstr] at hs
    | apiError status => simp [refactorCode, hr] at hs
    | retriesExhausted => simp [refactorCode, hr] at hs

/-- Witness for C4 at a successful response with no choices. -/
theorem refactorCode_empty_is_failure_witness :
    (callOpenAIWithRetries emptyRespOutcome zeroJitter).result
        = CallResult.success ⟨[]⟩
    ∧ (⟨[]⟩ : ChatCompletionResponse).choices.head? = none
    ∧ refactorCode emptyRespOutcome zeroJitter
        = Except.error RefactorError.emptyCompletion :=
  ⟨rfl, rfl,
    (refactorCode_empty_is_failure emptyRespOutcome zeroJitter).1
      ⟨[]⟩ rfl (Or.inl rfl)⟩

/-- Counterexample to claim C5 as stated over all cited code: on success,
`refactorFunctions.refactorReact` writes the refactored text back to the
ORIGINAL path `src/a.js` — no `.tsx` file with the same base name is
written and the original is not removed. -/
theorem refactorFns_writes_in_place_cex :
    refactorReactFns (some "code") none "src/a.js"
        = [FsOp.write "src/a.js" "code"]
    ∧ newFilePath "src/a.js" true = "src/a.tsx"
    ∧ FsOp.unlink "src/a.js" ∉ refactorReactFns (some "code") none "src/a.js"
    ∧ FsOp.write "src/a.tsx" "code" ∉ refactorReactFns (some "code") none "src/a.js" :=
  ⟨by decide, by decide, by decide, by decide⟩

/-- Claim C5 as amended: in `fileProcessor.processFile`, when a model call
succeeds and both file-system operations succeed, exactly one new file is
written — at the same directory and base name with extension `.tsx` when
classified React and `.ts` otherwise — and the original is removed,
`succeeded` being incremented; an unlink of the original happens in no
other case; and the `refactorFunctions` variant only ever writes to the
original path (it never unlinks or renames anything). -/
theorem processFile_success_write_unlink (filePath : String) (e : FileEnv)
    (st : TravState) (code : String)
    (hr : e.readOk = true) (hm : modelResult e = some code)
    (hw : e.writeOk = true) (hu : e.unlinkOk = true) :
    ((processFileSt filePath e st).1.ops
      = st.ops ++ [FsOp.write (newFilePath filePath e.isReact) code,
                   FsOp.unlink filePath]
    ∧ (processFileSt filePath e st).1.summary.succeeded
        = st.summary.succeeded + 1)
    ∧ (∀ (fp p : String) (e2 : FileEnv) (st2 : TravState),
        FsOp.unlink p ∈ (processFileSt fp e2 st2).1.ops →
        FsOp.unlink p ∈ st2.ops
        ∨ (p = fp ∧ e2.readOk = true ∧ modelResult e2 ≠ none
            ∧ e2.writeOk = true ∧ e2.unlinkOk = true))
    ∧ (∀ (first second : Option String) (fp : String) (op : FsOp),
        op ∈ refactorReactFns first second fp → ∃ c, op = FsOp.write fp c) := by
  refine ⟨?_, ?_, ?_⟩
  · rcases e with ⟨ro, ir, pr, fb, wo, uo⟩
    subst hr
    subst hw
    subst hu
    cases pr with
    | some c =>
      have hc : c = code := by simpa [modelResult] using hm
      subst hc
      cases fb <;>
        simp [processFileSt, writePhase, List.append_assoc]
    | none =>
      have hc : fb = some code := by simpa [modelResult] using hm
      subst hc
      simp [processFileSt, writePhase, List.append_assoc]
  · intro fp p e2 st2 hmem
    rcases e2 with ⟨ro, ir, pr, fb, wo, uo⟩
    cases ro <;> cases pr <;> cases fb <;> cases wo <;> cases uo <;>
      simp [processFileSt, writePhase, modelResult] at hmem ⊢ <;>
      tauto
  · intro first second fp op hop
    unfold refactorReactFns jsTruthy at hop
    rcases first with _ | c1
    · rcases second with _ | c2
      · simp at hop
      · by_cases h2 : c2 = ""
        · simp [h2] at hop
        · simp [h2] at hop
          exact ⟨c2, by simp [hop]⟩
    · by_cases h1 : c1 = ""
      · rcases second with _ | c2
        · simp [h1] at hop
        · by_cases h2 : c2 = ""
          · simp [h1, h2] at hop
          · simp [h1, h2] at hop
            exact ⟨c2, by simp [hop]⟩
      · simp [h1] at hop
        exact ⟨c1, by simp [hop]⟩

/-- Witness for C5 (amended) at a concrete React file whose primary call
and file-system operations succeed. -/
theorem processFile_success_write_unlink_witness :
    envPrimaryOk.readOk = true ∧ modelResult envPrimaryOk = some "out"
    ∧ envPrimaryOk.writeOk = true ∧ envPrimaryOk.unlinkOk = true
    ∧ ((processFileSt "src/a.js" envPrimaryOk zeroState).1.ops
      = zeroState.ops ++ [FsOp.write (newFilePath "src/a.js" envPrimaryOk.isReact) "out",
                   FsOp.unlink "src/a.js"]
    ∧ (processFileSt "src/a.js" envPrimaryOk zeroState).1.summary.succeeded
        = zeroState.summary.succeeded + 1) :=
  ⟨rfl, rfl, rfl, rfl,
    (processFile_success_write_unlink "src/a.js" envPrimaryOk zeroState "out"
      rfl rfl rfl rfl).1⟩

end Refacto
